import Mathlib

/-!
Verification of the resilient HTTP request pipeline of the WordPress REST API
client (`src/client/api.ts`).  The pipeline is embedded shallowly: network
responses, thrown errors and parsed-JSON shapes are oracle inputs; the control
flow (retry loop, error classification, permalink fallback, statistics) is
translated function by function from the source.  JavaScript numbers that hold
durations and running averages are modelled as rationals; machine timestamps
as naturals.
-/

/-- Models JavaScript `hay.includes(needle)`: `needle` occurs contiguously in
`hay` (true for the empty needle, as in JS). -/
def strContains (hay needle : String) : Bool :=
  hay.data.tails.any fun t => needle.data.isPrefixOf t

/-- Models JavaScript `s.toLowerCase()` for the ASCII texts the pipeline
compares (`Char.toLower` lowercases ASCII letters). -/
def lowerStr (s : String) : String :=
  ⟨s.data.map Char.toLower⟩

/-- Splitting scanner over character lists: at each position, either the
(nonempty) separator matches and a chunk is emitted, or one character is
consumed; the fuel is the list length, enough for every step. -/
def splitOnCharsGo (sep : List Char) : Nat → List Char → List Char → List (List Char)
  | 0, l, acc => [acc.reverse ++ l]
  | _ + 1, [], acc => [acc.reverse]
  | fuel + 1, c :: rest, acc =>
    if sep.isPrefixOf (c :: rest) then
      acc.reverse :: splitOnCharsGo sep fuel ((c :: rest).drop sep.length) []
    else
      splitOnCharsGo sep fuel rest (c :: acc)

/-- Models JavaScript `s.split(sep)` for a nonempty plain-string separator:
the chunks between non-overlapping left-to-right occurrences of `sep`. -/
def strSplitOn (s sep : String) : List String :=
  if sep.data.isEmpty then [s]
  else (splitOnCharsGo sep.data s.data.length s.data []).map fun l => ⟨l⟩

/-- Joins chunks back with the separator (the inverse step used when only the
first occurrence of a pattern is to be replaced). -/
def strIntercalate (sep : String) (xs : List String) : String :=
  ⟨List.intercalate sep.data (xs.map String.data)⟩

/-- Models JavaScript `s.replace(pat, repl)` with a plain-string pattern:
only the first occurrence is replaced. -/
def replaceFirst (s pat repl : String) : String :=
  match strSplitOn s pat with
  | [] => s
  | [x] => x
  | x :: rest => x ++ repl ++ strIntercalate pat rest

/-- Models JavaScript `s.startsWith(pre)`. -/
def strStartsWith (s pre : String) : Bool :=
  pre.data.isPrefixOf s.data

/-- Models JavaScript `s.endsWith(post)`. -/
def strEndsWith (s post : String) : Bool :=
  post.data.isSuffixOf s.data

/-- Models `s.replace(/\/$/, "")`: strips a single trailing slash. -/
def stripOneTrailingSlash (s : String) : String :=
  if strEndsWith s "/" then s.dropRight 1 else s

/-- Models `endpoint.replace(/^\/+/, "")` (api.ts line 537). -/
def dropLeadingSlashes (s : String) : String :=
  ⟨s.data.dropWhile (· == '/')⟩

/-- The `ClientStats` record of `src/client/api.ts` (initialised at lines
197-205); `lastRequestTime` is the timestamp set by
`updateAverageResponseTime`. -/
structure ClientStats where
  totalRequests : Nat
  successfulRequests : Nat
  failedRequests : Nat
  averageResponseTime : ℚ
  rateLimitHits : Nat
  authFailures : Nat
  errors : Nat
  lastRequestTime : Nat
deriving Repr, DecidableEq

/-- The stats record as initialised in the constructor (api.ts 197-205). -/
def freshStats : ClientStats :=
  ⟨0, 0, 0, 0, 0, 0, 0, 0⟩

/-- Translation of `updateAverageResponseTime` (api.ts 845-850): reads the
already-incremented success counter `n` and recomputes the running average as
`(avg * (n - 1) + duration) / n`; also stamps `lastRequestTime`. -/
def updateAverageResponseTime (duration : ℚ) (now : Nat) (s : ClientStats) : ClientStats :=
  let totalSuccessful : ℚ := (s.successfulRequests : ℚ)
  { s with
    averageResponseTime := (s.averageResponseTime * (totalSuccessful - 1) + duration) / totalSuccessful
    lastRequestTime := now }

/-- The success bookkeeping shared by `parseResponse` and
`tryIndexPhpFallback`: increment `successfulRequests`, then recompute the
average (api.ts 822-824, 829-832, 838-840, 797-800, 804-807). -/
def recordSuccess (duration : ℚ) (now : Nat) (s : ClientStats) : ClientStats :=
  updateAverageResponseTime duration now
    { s with successfulRequests := s.successfulRequests + 1 }

/-- The `authFailures` increment of `authenticate`'s catch block
(api.ts 442-446). -/
def recordAuthFailure (s : ClientStats) : ClientStats :=
  { s with authFailures := s.authFailures + 1 }

/-- The outcome of `JSON.parse` on a response body, supplied as an oracle:
either the parse throws (with the exception message), or it yields a value
whose `message` / `error` properties are recorded, with `""` standing for a
missing or falsy field (matching the `||` chains of the source).  `val` is an
abstract identity for the parsed value. -/
inductive ParseResult where
  | fail (errMsg : String)
  | ok (message : String) (err : String) (val : String)
deriving Repr, DecidableEq

/-- A fetched HTTP response: status, status text, raw body text, and the
oracle result of `JSON.parse` on that text. -/
structure HttpResponse where
  status : Nat
  statusText : String
  text : String
  parsed : ParseResult
deriving Repr, DecidableEq

/-- `response.ok` of the Fetch API: status in the inclusive range 200-299. -/
def respOk (r : HttpResponse) : Bool :=
  200 ≤ r.status && r.status ≤ 299

/-- A value thrown by `fetch` or the abort controller: either an `Error`
instance (with its `name` and `message`) or a non-`Error` value (a string, or
something else entirely). -/
inductive JsError where
  | jsError (name message : String)
  | nonError (s : Option String)
deriving Repr, DecidableEq

/-- What one `fetch` call does: deliver a response or throw. -/
inductive FetchOutcome where
  | resp (r : HttpResponse)
  | thrown (e : JsError)
deriving Repr, DecidableEq

/-- The runtime shape of the `data` argument of `request`, following the
classification in `isRetryableBody` and `attachRequestBody`
(api.ts 626-656, 685-706). -/
inductive RequestBody where
  | empty
  | text (s : String)
  | buffer
  | formData
  | streamPipe
  | jsonObject
deriving Repr, DecidableEq

/-- Translation of `isRetryableBody` (api.ts 685-706): falsy, string and
Buffer bodies are replayable; FormData and stream-like objects (with a `pipe`
function) are not; any other object is replayable. -/
def isRetryableBody (data : RequestBody) : Bool :=
  match data with
  | .empty => true
  | .text _ => true
  | .buffer => true
  | .formData => false
  | .streamPipe => false
  | .jsonObject => true

/-- The request options handed to `fetch`, as far as the fallback logic
observes them: method, headers and body survive the spread into
`fallbackOptions` (api.ts 784-787); the per-attempt abort signal does not. -/
structure FetchOpts where
  method : String
  headers : List (String × String)
  body : RequestBody
deriving Repr, DecidableEq

/-- The error classes of `@/types/client.js` (not under src/).
Modelled from the spec: `RateLimitError` carries a retry-after estimate,
`APIError` carries the HTTP status code, `AuthenticationError` carries a
message; each is an `Error` subclass exposing `message`. -/
inductive ErrorKind where
  | rateLimitError (message : String) (retryAfter : Nat)
  | authenticationError (message : String)
  | apiError (message : String) (status : Option Nat)
deriving Repr, DecidableEq

/-- The `message` property of a thrown pipeline error. -/
def errorKindMessage : ErrorKind → String
  | .rateLimitError m _ => m
  | .authenticationError m => m
  | .apiError m _ => m

/-- The value `request` resolves with: `null` for an empty body, the parsed
JSON value, or the raw response text when JSON parsing degrades gracefully. -/
inductive ReqResult where
  | nullResult
  | jsonResult (v : String)
  | textResult (s : String)
deriving Repr, DecidableEq

/-- The components of a WHATWG-parsed URL that `tryIndexPhpFallback` reads
from `new URL(url)`: origin, pathname and serialized query. -/
structure UrlParts where
  origin : String
  pathname : String
  query : String
deriving Repr, DecidableEq

/-- Models `new URL(url)` for the fragment-free http(s) URLs the pipeline
builds: split the scheme at `://`, the query at the first `?`, and the host
at the first `/`; `none` models the constructor throwing. -/
def parseUrl (url : String) : Option UrlParts :=
  match strSplitOn url "://" with
  | [scheme, rest] =>
    if scheme = "" || rest = "" then none
    else
      let hostAndQuery := strSplitOn rest "?"
      let hostpath := hostAndQuery.headD ""
      let query := strIntercalate "?" hostAndQuery.tail
      match strSplitOn hostpath "/" with
      | [] => none
      | host :: segs =>
        if host = "" then none
        else
          some ⟨scheme ++ "://" ++ host,
            if segs.isEmpty then "/" else "/" ++ strIntercalate "/" segs,
            query⟩
  | _ => none

/-- One attempt's oracle: the primary fetch outcome, the fallback fetch
outcome (consulted only when the 404 fallback fires), and the timer duration
observed if this attempt terminates the call. -/
structure AttemptOracle where
  outcome : FetchOutcome
  fallback : FetchOutcome
  duration : ℚ
deriving Repr, DecidableEq

/-- The static inputs of one `request(method, endpoint, data, options)` call,
with config fields already resolved: `retryOverride` is `options.retries`,
`maxRetries` the constructor value, `timeout` the resolved request timeout,
`headers` the base headers after auth injection, `now` the `Date.now()`
reading used for the rate-limit retry-after stamp. -/
structure ReqParams where
  method : String
  endpoint : String
  data : RequestBody
  headers : List (String × String)
  retryOverride : Option Int
  maxRetries : Nat
  timeout : Nat
  apiUrl : String
  now : Nat
deriving Repr

/-- URL resolution of `request` (api.ts 537-538): absolute endpoints are used
verbatim, otherwise leading slashes are stripped and the endpoint is appended
to `apiUrl`. -/
def requestUrl (p : ReqParams) : String :=
  if strStartsWith p.endpoint "http" then p.endpoint
  else p.apiUrl ++ "/" ++ dropLeadingSlashes p.endpoint

/-- `this.maxRetries || 1` (api.ts 551). -/
def defaultedMaxRetries (maxRetries : Nat) : Nat :=
  if maxRetries = 0 then 1 else maxRetries

/-- `typeof retryOverride === "number" && retryOverride > 0 ? retryOverride :
this.maxRetries || 1` (api.ts 550-551). -/
def configuredRetriesOf (retryOverride : Option Int) (maxRetries : Nat) : Nat :=
  match retryOverride with
  | some r => if 0 < r then r.toNat else defaultedMaxRetries maxRetries
  | none => defaultedMaxRetries maxRetries

/-- `maxAttempts = canRetryBody ? configuredRetries : 1` (api.ts 552-553). -/
def maxAttemptsOf (p : ReqParams) : Nat :=
  if isRetryableBody p.data then configuredRetriesOf p.retryOverride p.maxRetries else 1

/-- Error-message extraction of `handleErrorResponseWithFallback`
(api.ts 716-724): prefer the parsed body's `message`, then `error`, then
`HTTP <status>`; on a parse failure use the raw text, or
`HTTP <status>: <statusText>` when the text is empty. -/
def extractErrorMessage (r : HttpResponse) : String :=
  match r.parsed with
  | .fail _ =>
    if r.text ≠ "" then r.text
    else "HTTP " ++ toString r.status ++ ": " ++ r.statusText
  | .ok m e _ =>
    if m ≠ "" then m else if e ≠ "" then e else "HTTP " ++ toString r.status

/-- Translation of `normalizeRequestError` (api.ts 658-669): an abort becomes
a timeout message, a socket hang-up or ECONNRESET becomes a connection-lost
message, other `Error`s keep their message, and non-`Error` throws become
their string or "Unknown error".  Only the message is observable downstream. -/
def normalizeRequestError (e : JsError) (timeout : Nat) : String :=
  match e with
  | .jsError name m =>
    if name = "AbortError" then "Request timeout after " ++ toString timeout ++ "ms"
    else if strContains m "socket hang up" || strContains m "ECONNRESET" then
      "Network connection lost during request: " ++ m
    else m
  | .nonError s => s.getD "Unknown error"

/-- `normalizeRequestError` applied to an error thrown by the pipeline's own
handlers (their `name` is never "AbortError", so only the message branches of
api.ts 663-666 apply). -/
def normalizeHandlerError (ek : ErrorKind) : String :=
  let m := errorKindMessage ek
  if strContains m "socket hang up" || strContains m "ECONNRESET" then
    "Network connection lost during request: " ++ m
  else m

/-- Translation of `shouldRetryError` (api.ts 671-683): no retry when the
lowercased message contains "401", "403", "timeout" or "network connection
lost"; otherwise retry. -/
def shouldRetryError (message : String) : Bool :=
  let msg := lowerStr message
  !(strContains msg "401" || strContains msg "403" || strContains msg "timeout" ||
    strContains msg "network connection lost")

/-- Translation of `parseResponse` (api.ts 815-843): empty text resolves to
null and records a success; parseable text resolves to the parsed value and
records a success; unparseable text on a `users/me` or `jwt-auth` endpoint
throws `WordPressAPIError("Invalid JSON response: ...")`, and on any other
endpoint resolves to the raw text and records a success. -/
def parseResponseM (r : HttpResponse) (endpoint : String) (duration : ℚ) (now : Nat)
    (s : ClientStats) : Except ErrorKind ReqResult × ClientStats :=
  if r.text = "" then (.ok .nullResult, recordSuccess duration now s)
  else
    match r.parsed with
    | .ok _ _ v => (.ok (.jsonResult v), recordSuccess duration now s)
    | .fail em =>
      if strContains endpoint "users/me" || strContains endpoint "jwt-auth" then
        (.error (.apiError ("Invalid JSON response: " ++ em) none), s)
      else (.ok (.textResult r.text), recordSuccess duration now s)

/-- The fallback URL computed by `tryIndexPhpFallback` (api.ts 770-777):
`origin + "/index.php?rest_route=/wp/v2" + pathname-without-prefix`, with the
original query appended after `&`. -/
def fallbackUrlOf (u : UrlParts) : String :=
  let base := u.origin ++ "/index.php?rest_route=/wp/v2" ++
    replaceFirst u.pathname "/wp-json/wp/v2" ""
  if u.query = "" then base else base ++ "&" ++ u.query

/-- Translation of `tryIndexPhpFallback` (api.ts 761-813): rewrite the URL to
the `index.php?rest_route=` form, reissue the request with the same options
(fresh abort signal), and on a 2xx parse the body exactly as a success would;
any failure (URL parse throw, fetch throw, non-2xx, JSON parse throw) yields
`undefined`, modelled as `none`.  The third component records the fallback
fetches actually issued. -/
def tryIndexPhpFallback (url : String) (opts : FetchOpts) (fb : FetchOutcome) (duration : ℚ)
    (now : Nat) (s : ClientStats) :
    Option ReqResult × ClientStats × List (String × FetchOpts) :=
  match parseUrl url with
  | none => (none, s, [])
  | some u =>
    let fUrl := fallbackUrlOf u
    match fb with
    | .thrown _ => (none, s, [(fUrl, opts)])
    | .resp fr =>
      if !(respOk fr) then (none, s, [(fUrl, opts)])
      else if fr.text = "" then (some .nullResult, recordSuccess duration now s, [(fUrl, opts)])
      else
        match fr.parsed with
        | .fail _ => (none, s, [(fUrl, opts)])
        | .ok _ _ v => (some (.jsonResult v), recordSuccess duration now s, [(fUrl, opts)])

/-- Translation of `handleErrorResponseWithFallback` (api.ts 708-759): extract
a message; 429 increments `rateLimitHits` and throws `RateLimitError` with
retry-after `now + 60000`; 403 on a media POST throws the enriched
`AuthenticationError`; the German permission phrase on a media endpoint
throws its `AuthenticationError`; 404 under the `/wp-json/wp/v2` prefix tries
the index.php fallback and returns its result when it succeeds; everything
else (and a failed fallback) throws `WordPressAPIError` with the status. -/
def handleErrorResponse (r : HttpResponse) (url endpoint : String) (opts : FetchOpts)
    (fb : FetchOutcome) (now : Nat) (duration : ℚ) (s : ClientStats) :
    Except ErrorKind ReqResult × ClientStats × List (String × FetchOpts) :=
  if r.status = 429 then
    (.error (.rateLimitError (extractErrorMessage r) (now + 60000)),
      { s with rateLimitHits := s.rateLimitHits + 1 }, [])
  else if r.status = 403 && strContains endpoint "media" && opts.method = "POST" then
    (.error (.authenticationError
      ("Media upload blocked: WordPress REST API media uploads appear to be disabled or restricted by a plugin/security policy. Error: "
        ++ extractErrorMessage r ++
        ". Common causes: W3 Total Cache, security plugins, or custom REST API restrictions. Please check WordPress admin settings or contact your system administrator.")),
      s, [])
  else if strContains (extractErrorMessage r) "Beiträge zu erstellen" && strContains endpoint "media" then
    (.error (.authenticationError
      ("WordPress REST API media upload restriction detected: " ++ extractErrorMessage r ++
        ". This typically indicates that media uploads via REST API are disabled by WordPress configuration, a security plugin (like W3 Total Cache, Borlabs Cookie), or server policy. User has sufficient permissions but WordPress/plugins are blocking the upload.")),
      s, [])
  else if r.status = 404 && strContains url "/wp-json/wp/v2" then
    match tryIndexPhpFallback url opts fb duration now s with
    | (some v, s1, fbs) => (.ok v, s1, fbs)
    | (none, s1, fbs) => (.error (.apiError (extractErrorMessage r) (some r.status)), s1, fbs)
  else
    (.error (.apiError (extractErrorMessage r) (some r.status)), s, [])

/-- The final error of `request` after the loop (api.ts 621-623). -/
def requestFailedMsg (maxAttempts : Nat) (lastErrMsg : String) : String :=
  "Request failed after " ++ toString maxAttempts ++ " attempt" ++
    (if maxAttempts = 1 then "" else "s") ++ ": " ++ lastErrMsg

/-- What one iteration of the retry loop decides: resolve with a value, stop
retrying (break), or retry after a backoff delay.  Each carries the updated
stats and the fallback fetches issued during the attempt. -/
inductive StepOut where
  | success (v : ReqResult) (s : ClientStats) (fbs : List (String × FetchOpts))
  | brk (lastErrMsg : String) (s : ClientStats) (fbs : List (String × FetchOpts))
  | retry (lastErrMsg : String) (s : ClientStats) (fbs : List (String × FetchOpts))
deriving Repr

/-- The catch-block decision of `request` for a non-`RateLimitError`
(api.ts 605-613): retry exactly when `shouldRetryError` accepts the
normalized message and attempts remain. -/
def classifyCaught (maxAttempts attemptIdx : Nat) (m : String) (s : ClientStats)
    (fbs : List (String × FetchOpts)) : StepOut :=
  if shouldRetryError m && decide (attemptIdx < maxAttempts - 1) then .retry m s fbs
  else .brk m s fbs

/-- One iteration of the attempt loop of `request` (api.ts 557-617): fetch;
on a 2xx parse the response (a parse throw is caught and classified); on a
non-2xx run the error handler, where a `RateLimitError` breaks immediately
and other throws are normalized and classified; a fetch throw is normalized
and classified. -/
def attemptStep (p : ReqParams) (oracle : Nat → AttemptOracle) (maxAttempts attemptIdx : Nat)
    (s : ClientStats) : StepOut :=
  match (oracle attemptIdx).outcome with
  | .resp r =>
    if respOk r then
      match parseResponseM r p.endpoint (oracle attemptIdx).duration p.now s with
      | (.ok v, s1) => .success v s1 []
      | (.error ek, s1) => classifyCaught maxAttempts attemptIdx (normalizeHandlerError ek) s1 []
    else
      match handleErrorResponse r (requestUrl p) p.endpoint ⟨p.method, p.headers, p.data⟩
          (oracle attemptIdx).fallback p.now (oracle attemptIdx).duration s with
      | (.ok v, s1, fbs) => .success v s1 fbs
      | (.error (.rateLimitError m _), s1, fbs) => .brk m s1 fbs
      | (.error ek, s1, fbs) => classifyCaught maxAttempts attemptIdx (normalizeHandlerError ek) s1 fbs
  | .thrown e => classifyCaught maxAttempts attemptIdx (normalizeRequestError e p.timeout) s []

deriving instance DecidableEq for Except

/-- The observable result of one `request` call: the resolved value or thrown
error, the stats afterwards, the number of attempts made, the backoff delays
awaited between attempts, and the fallback fetches issued. -/
structure RunResult where
  outcome : Except ErrorKind ReqResult
  stats : ClientStats
  attemptsMade : Nat
  backoffDelays : List Nat
  fallbackFetches : List (String × FetchOpts)
deriving Repr, DecidableEq

/-- Exhaustion or break of the loop (api.ts 619-623): increment
`failedRequests` once and throw `WordPressAPIError` wrapping the last error
message with the attempt budget. -/
def finishFail (maxAttempts : Nat) (lastErrMsg : String) (s : ClientStats) (attempts : Nat)
    (ds : List Nat) (fbs : List (String × FetchOpts)) : RunResult :=
  ⟨.error (.apiError (requestFailedMsg maxAttempts lastErrMsg) none),
    { s with failedRequests := s.failedRequests + 1 }, attempts, ds, fbs⟩

/-- The retry loop of `request` (api.ts 557-617), by recursion on the
remaining attempt budget: each retry first awaits `delay(1000 * (i + 1))`
(api.ts 613), recorded in the delay list. -/
def runAttempts (p : ReqParams) (oracle : Nat → AttemptOracle) (maxAttempts : Nat) :
    Nat → Nat → String → ClientStats → List Nat → List (String × FetchOpts) → RunResult
  | 0, attemptIdx, lastErr, s, ds, fs => finishFail maxAttempts lastErr s attemptIdx ds fs
  | remaining + 1, attemptIdx, _, s, ds, fs =>
    match attemptStep p oracle maxAttempts attemptIdx s with
    | .success v s1 fbs => ⟨.ok v, s1, attemptIdx + 1, ds, fs ++ fbs⟩
    | .brk m s1 fbs => finishFail maxAttempts m s1 (attemptIdx + 1) ds (fs ++ fbs)
    | .retry m s1 fbs =>
      runAttempts p oracle maxAttempts remaining (attemptIdx + 1) m s1
        (ds ++ [1000 * (attemptIdx + 1)]) (fs ++ fbs)

/-- Translation of `request` (api.ts 528-624): increment `totalRequests`,
compute the attempt budget from the body's replayability, and run the loop
with `lastError` initialised to "Unknown error". -/
def runRequest (p : ReqParams) (oracle : Nat → AttemptOracle) (s : ClientStats) : RunResult :=
  runAttempts p oracle (maxAttemptsOf p) (maxAttemptsOf p) 0 "Unknown error"
    { s with totalRequests := s.totalRequests + 1 } [] []

/-- A sequence of completed `request` calls, threading the stats record. -/
def runMany (calls : List (ReqParams × (Nat → AttemptOracle))) (s : ClientStats) : ClientStats :=
  calls.foldl (fun acc c => (runRequest c.1 c.2 acc).stats) s

/-- Stats evolution over a sequence of terminal successes with the given
durations, as performed by `parseResponse`. -/
def runSuccessStats (ds : List ℚ) (now : Nat) (s : ClientStats) : ClientStats :=
  ds.foldl (fun acc d => recordSuccess d now acc) s

/-- The hostname components of `new URL(url)` read by
`validateAndSanitizeUrl`; supplied as an oracle for the platform URL parser
(`none` models the constructor throwing a `TypeError`). -/
structure ParsedUrl where
  protocol : String
  hostname : String
  host : String
  pathname : String
deriving Repr, DecidableEq

/-- The private-host test of `validateAndSanitizeUrl` (api.ts 259-267):
exactly "localhost", "127.0.0.1" or "::1", or a prefix match for 10.x,
172.16-31.x or 192.168.x. -/
def isPrivateHostname (h : String) : Bool :=
  h = "localhost" || h = "127.0.0.1" || h = "::1" ||
  strStartsWith h "10." ||
  ((List.range 16).any fun i => strStartsWith h ("172." ++ toString (16 + i) ++ ".")) ||
  strStartsWith h "192.168."

/-- Translation of `validateAndSanitizeUrl` (api.ts 244-280): require a
non-empty URL that parses, allow only http/https, reject private or localhost
hostnames in production, and return `protocol + "//" + host + pathname` with
one trailing slash stripped (query and fragment are never included). -/
def validateAndSanitizeUrl (url : String) (parsed : Option ParsedUrl) (isProduction : Bool) :
    Except String String :=
  if url = "" then .error "WordPress site URL is required"
  else
    match parsed with
    | none => .error "Invalid WordPress site URL format"
    | some u =>
      if !(u.protocol = "http:" || u.protocol = "https:") then
        .error "Only HTTP and HTTPS protocols are allowed"
      else if isProduction && isPrivateHostname (lowerStr u.hostname) then
        .error "Private/localhost URLs not allowed in production"
      else
        .ok (stripOneTrailingSlash (u.protocol ++ "//" ++ u.host ++ u.pathname))

/-- The base URL actually stored by the constructor: `validateAndSanitizeUrl`
(api.ts 159) followed by the second single-slash strip of `validateConfig`
(api.ts 345). -/
def storedBaseUrl (url : String) (parsed : Option ParsedUrl) (isProduction : Bool) :
    Except String String :=
  (validateAndSanitizeUrl url parsed isProduction).map stripOneTrailingSlash

/-! ### Supporting lemmas -/

/-- Containment as list infix. -/
theorem strContains_iff {hay needle : String} :
    strContains hay needle = true ↔ needle.data <:+: hay.data := by
  unfold strContains
  rw [List.any_eq_true]
  constructor
  · rintro ⟨t, ht, hp⟩
    rw [List.mem_tails] at ht
    rw [List.isPrefixOf_iff_prefix] at hp
    exact List.infix_iff_prefix_suffix.mpr ⟨t, hp, ht⟩
  · intro h
    rcases List.infix_iff_prefix_suffix.mp h with ⟨t, hp, ht⟩
    exact ⟨t, (List.mem_tails _ _).mpr ht, List.isPrefixOf_iff_prefix.mpr hp⟩

/-- A substring of `a` is a substring of any extension of `a` on the right. -/
theorem strContains_append_right {a n : String} (b : String)
    (h : strContains a n = true) : strContains (a ++ b) n = true := by
  rw [strContains_iff] at h ⊢
  rw [String.data_append]
  exact h.trans (List.prefix_append a.data b.data).isInfix

/-- Containment only depends on the underlying character list. -/
theorem strContains_congr {h1 h2 n : String} (e : h1.data = h2.data) :
    strContains h1 n = strContains h2 n := by
  unfold strContains
  rw [e]

/-- Lowercasing maps over string concatenation. -/
theorem lowerStr_append (a b : String) :
    (lowerStr (a ++ b)).data = (lowerStr a).data ++ (lowerStr b).data := by
  simp [lowerStr, String.data_append]

/-- A lowercased needle found in `lowerStr a` survives appending to `a`. -/
theorem lowerStr_contains_append {a n : String} (b : String)
    (h : strContains (lowerStr a) n = true) :
    strContains (lowerStr (a ++ b)) n = true := by
  have e : (lowerStr (a ++ b)).data = (lowerStr a ++ lowerStr b).data := by
    rw [lowerStr_append, String.data_append]
  rw [strContains_congr e]
  exact strContains_append_right _ h

/-- If the lowercased message contains "timeout", the pipeline refuses to
retry. -/
theorem shouldRetry_false_of_timeout {m : String}
    (h : strContains (lowerStr m) "timeout" = true) : shouldRetryError m = false := by
  unfold shouldRetryError
  simp [h]

/-- If the lowercased message contains "network connection lost", the
pipeline refuses to retry. -/
theorem shouldRetry_false_of_connLost {m : String}
    (h : strContains (lowerStr m) "network connection lost" = true) :
    shouldRetryError m = false := by
  unfold shouldRetryError
  simp [h]

/-- If the lowercased message contains "401", the pipeline refuses to
retry. -/
theorem shouldRetry_false_of_401 {m : String}
    (h : strContains (lowerStr m) "401" = true) : shouldRetryError m = false := by
  unfold shouldRetryError
  simp [h]

/-- A normalized abort is never retried: its message carries "timeout". -/
theorem shouldRetry_abort_false (m : String) (t : Nat) :
    shouldRetryError (normalizeRequestError (.jsError "AbortError" m) t) = false := by
  have h : strContains (lowerStr ("Request timeout after " ++ toString t ++ "ms")) "timeout" = true := by
    apply lowerStr_contains_append
    apply lowerStr_contains_append
    decide
  unfold normalizeRequestError
  simp only [if_pos rfl]
  exact shouldRetry_false_of_timeout h

/-- A normalized connection loss is never retried: its message carries
"network connection lost". -/
theorem shouldRetry_connLost_false (m : String) :
    shouldRetryError ("Network connection lost during request: " ++ m) = false := by
  apply shouldRetry_false_of_connLost
  have e : (lowerStr ("Network connection lost during request: " ++ m)).data =
      (lowerStr "Network connection lost during request: " ++ lowerStr m).data := by
    rw [lowerStr_append, String.data_append]
  rw [strContains_congr e]
  exact strContains_append_right _ (by decide)

/-- A connection-reset error (name not "AbortError", message containing
"ECONNRESET") normalizes to the connection-lost message. -/
theorem normalize_econnreset (name m : String) (t : Nat)
    (hn : name ≠ "AbortError") (h : strContains m "ECONNRESET" = true) :
    normalizeRequestError (.jsError name m) t =
      "Network connection lost during request: " ++ m := by
  simp only [normalizeRequestError]
  rw [if_neg hn]
  have hor : (strContains m "socket hang up" || strContains m "ECONNRESET") = true := by
    simp [h]
  rw [if_pos hor]

/-- The defaulted constructor retry count is at least one. -/
theorem defaultedMaxRetries_pos (n : Nat) : 1 ≤ defaultedMaxRetries n := by
  unfold defaultedMaxRetries
  split <;> omega

/-- The configured attempt budget is at least one. -/
theorem configuredRetries_pos (o : Option Int) (n : Nat) : 1 ≤ configuredRetriesOf o n := by
  unfold configuredRetriesOf
  match o with
  | none => exact defaultedMaxRetries_pos n
  | some r =>
    by_cases h : 0 < r
    · simp only [if_pos h]
      omega
    · simp only [if_neg h]
      exact defaultedMaxRetries_pos n

/-- The attempt budget of any call is at least one. -/
theorem maxAttemptsOf_pos (p : ReqParams) : 1 ≤ maxAttemptsOf p := by
  unfold maxAttemptsOf
  split
  · exact configuredRetries_pos _ _
  · omega

/-- Whether a pipeline outcome is a resolved value. -/
def isOkB : Except ErrorKind ReqResult → Bool
  | .ok _ => true
  | .error _ => false

/-- Counter bookkeeping of a recorded success: only `successfulRequests`
moves, by exactly one. -/
theorem recordSuccess_counters (d : ℚ) (now : Nat) (s : ClientStats) :
    (recordSuccess d now s).totalRequests = s.totalRequests ∧
    (recordSuccess d now s).successfulRequests = s.successfulRequests + 1 ∧
    (recordSuccess d now s).failedRequests = s.failedRequests ∧
    (recordSuccess d now s).rateLimitHits = s.rateLimitHits ∧
    (recordSuccess d now s).authFailures = s.authFailures :=
  ⟨rfl, rfl, rfl, rfl, rfl⟩

/-- `parseResponse` either resolves and records exactly one success, or
throws and leaves the stats untouched. -/
theorem parseResponseM_spec (r : HttpResponse) (endpoint : String) (d : ℚ) (now : Nat)
    (s : ClientStats) :
    (∃ v, parseResponseM r endpoint d now s = (.ok v, recordSuccess d now s)) ∨
    (∃ ek, parseResponseM r endpoint d now s = (.error ek, s)) := by
  unfold parseResponseM
  split
  · exact .inl ⟨_, rfl⟩
  · split
    · exact .inl ⟨_, rfl⟩
    · split
      · exact .inr ⟨_, rfl⟩
      · exact .inl ⟨_, rfl⟩

/-- The index.php fallback either succeeds and records exactly one success,
or yields `undefined` and leaves the stats untouched. -/
theorem tryIndexPhpFallback_spec (url : String) (opts : FetchOpts) (fb : FetchOutcome)
    (d : ℚ) (now : Nat) (s : ClientStats) :
    (∃ v fbs, tryIndexPhpFallback url opts fb d now s = (some v, recordSuccess d now s, fbs)) ∨
    (∃ fbs, tryIndexPhpFallback url opts fb d now s = (none, s, fbs)) := by
  unfold tryIndexPhpFallback
  split
  · exact .inr ⟨_, rfl⟩
  · split
    · exact .inr ⟨_, rfl⟩
    · split
      · exact .inr ⟨_, rfl⟩
      · split
        · exact .inl ⟨_, _, rfl⟩
        · split
          · exact .inr ⟨_, rfl⟩
          · exact .inl ⟨_, _, rfl⟩

/-- The non-2xx handler either returns a fallback success (recording exactly
one success), or throws with the stats unchanged, or throws a rate-limit
error with exactly `rateLimitHits` incremented. -/
theorem handleErrorResponse_spec (r : HttpResponse) (url endpoint : String) (opts : FetchOpts)
    (fb : FetchOutcome) (now : Nat) (d : ℚ) (s : ClientStats) :
    (∃ v fbs, handleErrorResponse r url endpoint opts fb now d s =
      (.ok v, recordSuccess d now s, fbs)) ∨
    (∃ ek fbs, handleErrorResponse r url endpoint opts fb now d s = (.error ek, s, fbs)) ∨
    (∃ ek fbs, handleErrorResponse r url endpoint opts fb now d s =
      (.error ek, { s with rateLimitHits := s.rateLimitHits + 1 }, fbs)) := by
  unfold handleErrorResponse
  split
  · exact .inr (.inr ⟨_, _, rfl⟩)
  · split
    · exact .inr (.inl ⟨_, _, rfl⟩)
    · split
      · exact .inr (.inl ⟨_, _, rfl⟩)
      · split
        · rcases tryIndexPhpFallback_spec url opts fb d now s with ⟨v, fbs, h⟩ | ⟨fbs, h⟩
          · rw [h]
            exact .inl ⟨_, _, rfl⟩
          · rw [h]
            exact .inr (.inl ⟨_, _, rfl⟩)
        · exact .inr (.inl ⟨_, _, rfl⟩)

/-- One loop iteration either resolves (recording exactly one success) or
ends in a break/retry decision whose stats are the input stats, possibly with
`rateLimitHits` incremented. -/
theorem attemptStep_spec (p : ReqParams) (oracle : Nat → AttemptOracle) (maxAttempts i : Nat)
    (s : ClientStats) :
    (∃ v s1 fbs, attemptStep p oracle maxAttempts i s = .success v s1 fbs ∧
      s1 = recordSuccess (oracle i).duration p.now s) ∨
    (∃ m s1 fbs, (attemptStep p oracle maxAttempts i s = .brk m s1 fbs ∨
        attemptStep p oracle maxAttempts i s = .retry m s1 fbs) ∧
      (s1 = s ∨ s1 = { s with rateLimitHits := s.rateLimitHits + 1 })) := by
  have hclass : ∀ (m : String) (s1 : ClientStats) (fbs : List (String × FetchOpts)),
      classifyCaught maxAttempts i m s1 fbs = .retry m s1 fbs ∨
      classifyCaught maxAttempts i m s1 fbs = .brk m s1 fbs := by
    intro m s1 fbs
    unfold classifyCaught
    split
    · exact .inl rfl
    · exact .inr rfl
  unfold attemptStep
  rcases ho : (oracle i).outcome with r | e
  · dsimp only
    by_cases hok : respOk r = true
    · rw [if_pos hok]
      rcases parseResponseM_spec r p.endpoint (oracle i).duration p.now s with ⟨v, h⟩ | ⟨ek, h⟩
      · rw [h]
        exact .inl ⟨_, _, _, rfl, rfl⟩
      · rw [h]
        rcases hclass (normalizeHandlerError ek) s [] with hc | hc
        · exact .inr ⟨_, _, _, .inr hc, .inl rfl⟩
        · exact .inr ⟨_, _, _, .inl hc, .inl rfl⟩
    · rw [if_neg hok]
      rcases handleErrorResponse_spec r (requestUrl p) p.endpoint ⟨p.method, p.headers, p.data⟩
          (oracle i).fallback p.now (oracle i).duration s with
        ⟨v, fbs, h⟩ | ⟨ek, fbs, h⟩ | ⟨ek, fbs, h⟩
      · rw [h]
        exact .inl ⟨_, _, _, rfl, rfl⟩
      · rcases ek with ⟨m, t⟩ | m | ⟨m, st⟩
        · rw [h]
          exact .inr ⟨_, _, _, .inl rfl, .inl rfl⟩
        · rw [h]
          rcases hclass (normalizeHandlerError (.authenticationError m)) s fbs with hc | hc
          · exact .inr ⟨_, _, _, .inr hc, .inl rfl⟩
          · exact .inr ⟨_, _, _, .inl hc, .inl rfl⟩
        · rw [h]
          rcases hclass (normalizeHandlerError (.apiError m st)) s fbs with hc | hc
          · exact .inr ⟨_, _, _, .inr hc, .inl rfl⟩
          · exact .inr ⟨_, _, _, .inl hc, .inl rfl⟩
      · rcases ek with ⟨m, t⟩ | m | ⟨m, st⟩
        · rw [h]
          exact .inr ⟨_, _, _, .inl rfl, .inr rfl⟩
        · rw [h]
          rcases hclass (normalizeHandlerError (.authenticationError m))
              { s with rateLimitHits := s.rateLimitHits + 1 } fbs with hc | hc
          · exact .inr ⟨_, _, _, .inr hc, .inr rfl⟩
          · exact .inr ⟨_, _, _, .inl hc, .inr rfl⟩
        · rw [h]
          rcases hclass (normalizeHandlerError (.apiError m st))
              { s with rateLimitHits := s.rateLimitHits + 1 } fbs with hc | hc
          · exact .inr ⟨_, _, _, .inr hc, .inr rfl⟩
          · exact .inr ⟨_, _, _, .inl hc, .inr rfl⟩
  · dsimp only
    rcases hclass (normalizeRequestError e p.timeout) s [] with hc | hc
    · exact .inr ⟨_, _, _, .inr hc, .inl rfl⟩
    · exact .inr ⟨_, _, _, .inl hc, .inl rfl⟩

/-- A retry decision is only made while attempts remain. -/
theorem attemptStep_retry_lt {p : ReqParams} {oracle : Nat → AttemptOracle}
    {maxAttempts i : Nat} {s : ClientStats} {m : String} {s1 : ClientStats}
    {fbs : List (String × FetchOpts)}
    (h : attemptStep p oracle maxAttempts i s = .retry m s1 fbs) :
    i < maxAttempts - 1 := by
  by_contra hlt
  have hc : ∀ (m' : String) (s' : ClientStats) (fbs' : List (String × FetchOpts)),
      classifyCaught maxAttempts i m' s' fbs' ≠ .retry m s1 fbs := by
    intro m' s' fbs'
    unfold classifyCaught
    have hd : decide (i < maxAttempts - 1) = false := by
      simp [hlt]
    rw [hd]
    simp
  unfold attemptStep at h
  rcases ho : (oracle i).outcome with r | e <;> rw [ho] at h <;> dsimp only at h
  · by_cases hok : respOk r = true
    · rw [if_pos hok] at h
      rcases parseResponseM_spec r p.endpoint (oracle i).duration p.now s with ⟨v, he⟩ | ⟨ek, he⟩
      · rw [he] at h
        simp at h
      · rw [he] at h
        exact hc _ _ _ h
    · rw [if_neg hok] at h
      rcases handleErrorResponse_spec r (requestUrl p) p.endpoint ⟨p.method, p.headers, p.data⟩
          (oracle i).fallback p.now (oracle i).duration s with
        ⟨v, fbs', he⟩ | ⟨ek, fbs', he⟩ | ⟨ek, fbs', he⟩
      · rw [he] at h
        simp at h
      · rcases ek with ⟨m', t'⟩ | m' | ⟨m', st'⟩ <;> rw [he] at h <;>
          first
          | exact hc _ _ _ h
          | simp at h
      · rcases ek with ⟨m', t'⟩ | m' | ⟨m', st'⟩ <;> rw [he] at h <;>
          first
          | exact hc _ _ _ h
          | simp at h
  · exact hc _ _ _ h

/-- The loop performs at most the remaining number of attempts. -/
theorem runAttempts_attempts_le (p : ReqParams) (oracle : Nat → AttemptOracle) (M : Nat) :
    ∀ (remaining i : Nat) (e : String) (s : ClientStats) (ds : List Nat)
      (fs : List (String × FetchOpts)),
      (runAttempts p oracle M remaining i e s ds fs).attemptsMade ≤ i + remaining := by
  intro remaining
  induction remaining with
  | zero =>
    intro i e s ds fs
    simp [runAttempts, finishFail]
  | succ n ih =>
    intro i e s ds fs
    simp only [runAttempts]
    rcases hstep : attemptStep p oracle M i s with ⟨v, s1, fbs⟩ | ⟨m, s1, fbs⟩ | ⟨m, s1, fbs⟩
    · simp only
      omega
    · simp only [finishFail]
      omega
    · simp only
      have := ih (i + 1) m s1 (ds ++ [1000 * (i + 1)]) (fs ++ fbs)
      omega

/-- The attempt counter never moves backwards. -/
theorem runAttempts_attempts_ge0 (p : ReqParams) (oracle : Nat → AttemptOracle) (M : Nat) :
    ∀ (remaining i : Nat) (e : String) (s : ClientStats) (ds : List Nat)
      (fs : List (String × FetchOpts)),
      i ≤ (runAttempts p oracle M remaining i e s ds fs).attemptsMade := by
  intro remaining
  induction remaining with
  | zero =>
    intro i e s ds fs
    simp [runAttempts, finishFail]
  | succ n ih =>
    intro i e s ds fs
    simp only [runAttempts]
    rcases hstep : attemptStep p oracle M i s with ⟨v, s1, fbs⟩ | ⟨m, s1, fbs⟩ | ⟨m, s1, fbs⟩
    · simp only
      omega
    · simp only [finishFail]
      omega
    · simp only
      have := ih (i + 1) m s1 (ds ++ [1000 * (i + 1)]) (fs ++ fbs)
      omega

/-- With at least one attempt remaining, at least one attempt is made. -/
theorem runAttempts_attempts_ge1 (p : ReqParams) (oracle : Nat → AttemptOracle) (M : Nat)
    (remaining i : Nat) (e : String) (s : ClientStats) (ds : List Nat)
    (fs : List (String × FetchOpts)) (h : 1 ≤ remaining) :
    i + 1 ≤ (runAttempts p oracle M remaining i e s ds fs).attemptsMade := by
  rcases remaining with _ | n
  · omega
  · simp only [runAttempts]
    rcases hstep : attemptStep p oracle M i s with ⟨v, s1, fbs⟩ | ⟨m, s1, fbs⟩ | ⟨m, s1, fbs⟩
    · simp only
      omega
    · simp only [finishFail]
      omega
    · simp only
      have := runAttempts_attempts_ge0 p oracle M n (i + 1) m s1 (ds ++ [1000 * (i + 1)]) (fs ++ fbs)
      omega

/-- The counter content of a break/retry stats record. -/
theorem stepStats_base {s s1 : ClientStats}
    (h : s1 = s ∨ s1 = { s with rateLimitHits := s.rateLimitHits + 1 }) :
    s1.totalRequests = s.totalRequests ∧ s1.successfulRequests = s.successfulRequests ∧
    s1.failedRequests = s.failedRequests ∧ s1.authFailures = s.authFailures ∧
    s.rateLimitHits ≤ s1.rateLimitHits := by
  rcases h with rfl | rfl
  · exact ⟨rfl, rfl, rfl, rfl, le_refl _⟩
  · exact ⟨rfl, rfl, rfl, rfl, Nat.le_succ _⟩

/-- Counter bookkeeping of the whole loop: `totalRequests` and `authFailures`
are untouched, `rateLimitHits` only grows, and the run records exactly one
success or exactly one failure according to its outcome. -/
theorem runAttempts_counts (p : ReqParams) (oracle : Nat → AttemptOracle) (M : Nat) :
    ∀ (remaining i : Nat) (e : String) (s : ClientStats) (ds : List Nat)
      (fs : List (String × FetchOpts)),
      (runAttempts p oracle M remaining i e s ds fs).stats.totalRequests = s.totalRequests ∧
      (runAttempts p oracle M remaining i e s ds fs).stats.successfulRequests =
        s.successfulRequests +
          (if isOkB (runAttempts p oracle M remaining i e s ds fs).outcome then 1 else 0) ∧
      (runAttempts p oracle M remaining i e s ds fs).stats.failedRequests =
        s.failedRequests +
          (if isOkB (runAttempts p oracle M remaining i e s ds fs).outcome then 0 else 1) ∧
      (runAttempts p oracle M remaining i e s ds fs).stats.authFailures = s.authFailures ∧
      s.rateLimitHits ≤ (runAttempts p oracle M remaining i e s ds fs).stats.rateLimitHits := by
  intro remaining
  induction remaining with
  | zero =>
    intro i e s ds fs
    simp [runAttempts, finishFail, isOkB]
  | succ n ih =>
    intro i e s ds fs
    simp only [runAttempts]
    rcases attemptStep_spec p oracle M i s with ⟨v, s1, fbs, hstep, hs1⟩ |
      ⟨m, s1, fbs, hstep | hstep, hs1⟩ <;> simp only [hstep, finishFail]
    · subst hs1
      rcases recordSuccess_counters (oracle i).duration p.now s with ⟨h1, h2, h3, h4, h5⟩
      refine ⟨h1, ?_, ?_, h5, by omega⟩ <;> simp [isOkB, h2, h3]
    · rcases stepStats_base hs1 with ⟨g1, g2, g3, g4, g5⟩
      refine ⟨g1, ?_, ?_, g4, by omega⟩ <;> simp [isOkB, g2, g3]
    · rcases ih (i + 1) m s1 (ds ++ [1000 * (i + 1)]) (fs ++ fbs) with ⟨h1, h2, h3, h4, h5⟩
      rcases stepStats_base hs1 with ⟨g1, g2, g3, g4, g5⟩
      exact ⟨by rw [h1, g1], by rw [h2, g2], by rw [h3, g3], by rw [h4, g4], by omega⟩

/-- Backoff bookkeeping of the loop: starting at attempt `i` with the budget
invariant `i + remaining = M`, the delays awaited are exactly
`1000 * (j + 1)` for each attempt index `j` that was followed by a retry. -/
theorem runAttempts_delays (p : ReqParams) (oracle : Nat → AttemptOracle) (M : Nat) :
    ∀ (remaining i : Nat) (e : String) (s : ClientStats) (ds : List Nat)
      (fs : List (String × FetchOpts)), i + remaining = M →
      (runAttempts p oracle M remaining i e s ds fs).backoffDelays =
        ds ++ (List.range ((runAttempts p oracle M remaining i e s ds fs).attemptsMade - 1 - i)).map
          (fun j => 1000 * (i + j + 1)) := by
  intro remaining
  induction remaining with
  | zero =>
    intro i e s ds fs hM
    simp [runAttempts, finishFail]
  | succ n ih =>
    intro i e s ds fs hM
    simp only [runAttempts]
    rcases hstep : attemptStep p oracle M i s with ⟨v, s1, fbs⟩ | ⟨m, s1, fbs⟩ | ⟨m, s1, fbs⟩ <;>
      simp only [finishFail]
    · simp
    · simp
    · have hlt : i < M - 1 := attemptStep_retry_lt hstep
      have hn : 1 ≤ n := by omega
      have hge := runAttempts_attempts_ge1 p oracle M n (i + 1) m s1
        (ds ++ [1000 * (i + 1)]) (fs ++ fbs) hn
      have hrec := ih (i + 1) m s1 (ds ++ [1000 * (i + 1)]) (fs ++ fbs) (by omega)
      rw [hrec]
      have hk : (runAttempts p oracle M n (i + 1) m s1 (ds ++ [1000 * (i + 1)])
            (fs ++ fbs)).attemptsMade - 1 - i =
          ((runAttempts p oracle M n (i + 1) m s1 (ds ++ [1000 * (i + 1)])
            (fs ++ fbs)).attemptsMade - 1 - (i + 1)) + 1 := by
        omega
      rw [hk, List.range_succ_eq_map, List.map_cons, List.map_map]
      have hf : ((fun j => 1000 * (i + j + 1)) ∘ Nat.succ) = fun j => 1000 * (i + 1 + j + 1) := by
        funext j
        simp [Function.comp]
        ring
      rw [hf]
      simp

/-- Closed form of the linear backoff total. -/
theorem backoff_sum (k : Nat) :
    (((List.range k).map fun i => 1000 * (i + 1)).sum) = 500 * k * (k + 1) := by
  induction k with
  | zero => simp
  | succ n ih =>
    rw [List.range_succ, List.map_append, List.sum_append, ih]
    simp
    ring

/-- Per-call counter bookkeeping of `request`. -/
theorem runRequest_counts (p : ReqParams) (oracle : Nat → AttemptOracle) (s : ClientStats) :
    (runRequest p oracle s).stats.totalRequests = s.totalRequests + 1 ∧
    (runRequest p oracle s).stats.successfulRequests =
      s.successfulRequests + (if isOkB (runRequest p oracle s).outcome then 1 else 0) ∧
    (runRequest p oracle s).stats.failedRequests =
      s.failedRequests + (if isOkB (runRequest p oracle s).outcome then 0 else 1) ∧
    (runRequest p oracle s).stats.authFailures = s.authFailures ∧
    s.rateLimitHits ≤ (runRequest p oracle s).stats.rateLimitHits := by
  unfold runRequest
  rcases runAttempts_counts p oracle (maxAttemptsOf p) (maxAttemptsOf p) 0 "Unknown error"
    { s with totalRequests := s.totalRequests + 1 } [] [] with ⟨h1, h2, h3, h4, h5⟩
  exact ⟨h1, h2, h3, h4, h5⟩

/-- The partition invariant is preserved along any call sequence. -/
theorem runMany_partition : ∀ (calls : List (ReqParams × (Nat → AttemptOracle)))
    (s : ClientStats), s.totalRequests = s.successfulRequests + s.failedRequests →
    (runMany calls s).totalRequests =
      (runMany calls s).successfulRequests + (runMany calls s).failedRequests := by
  intro calls
  induction calls with
  | nil => intro s h; simpa [runMany] using h
  | cons c tl ih =>
    intro s h
    have hrec : runMany (c :: tl) s = runMany tl (runRequest c.1 c.2 s).stats := rfl
    rw [hrec]
    apply ih
    rcases runRequest_counts c.1 c.2 s with ⟨h1, h2, h3, _, _⟩
    rcases hok : isOkB (runRequest c.1 c.2 s).outcome <;> rw [hok] at h2 h3 <;> simp at h2 h3 <;>
      omega

/-- A 429 response makes the handler throw `RateLimitError` with retry-after
`now + 60000` and bump `rateLimitHits`, before any other branch. -/
theorem handleErrorResponse_429 (r : HttpResponse) (url endpoint : String) (opts : FetchOpts)
    (fb : FetchOutcome) (now : Nat) (d : ℚ) (s : ClientStats) (hr : r.status = 429) :
    handleErrorResponse r url endpoint opts fb now d s =
      (.error (.rateLimitError (extractErrorMessage r) (now + 60000)),
        { s with rateLimitHits := s.rateLimitHits + 1 }, []) := by
  unfold handleErrorResponse
  rw [if_pos hr]

/-- An attempt whose fetch returns a 429 ends the loop at once (the thrown
`RateLimitError` breaks, with the extracted message as last error). -/
theorem attemptStep_429 (p : ReqParams) (oracle : Nat → AttemptOracle) (M i : Nat)
    (s : ClientStats) (r : HttpResponse) (h0 : (oracle i).outcome = .resp r)
    (hr : r.status = 429) :
    attemptStep p oracle M i s =
      .brk (extractErrorMessage r) { s with rateLimitHits := s.rateLimitHits + 1 } [] := by
  unfold attemptStep
  rw [h0]
  dsimp only
  have hok : respOk r = false := by
    simp [respOk, hr]
  rw [hok]
  rw [handleErrorResponse_429 r (requestUrl p) p.endpoint ⟨p.method, p.headers, p.data⟩
    (oracle i).fallback p.now (oracle i).duration s hr]
  simp

/-- An attempt whose fetch throws is classified by the catch block. -/
theorem attemptStep_thrown (p : ReqParams) (oracle : Nat → AttemptOracle) (M i : Nat)
    (s : ClientStats) (e : JsError) (h0 : (oracle i).outcome = .thrown e) :
    attemptStep p oracle M i s =
      classifyCaught M i (normalizeRequestError e p.timeout) s [] := by
  unfold attemptStep
  rw [h0]

/-- Fold invariant for the running average: after any success sequence the
average times the success count equals the accumulated durations. -/
theorem runSuccessStats_aux (now : Nat) :
    ∀ (ds : List ℚ) (s : ClientStats),
      (runSuccessStats ds now s).successfulRequests = s.successfulRequests + ds.length ∧
      (runSuccessStats ds now s).averageResponseTime *
          ((s.successfulRequests : ℚ) + ds.length) =
        s.averageResponseTime * s.successfulRequests + ds.sum := by
  intro ds
  induction ds with
  | nil =>
    intro s
    simp [runSuccessStats]
  | cons d tl ih =>
    intro s
    have hrec : runSuccessStats (d :: tl) now s = runSuccessStats tl now (recordSuccess d now s) :=
      rfl
    have hsucc : (recordSuccess d now s).successfulRequests = s.successfulRequests + 1 := rfl
    rcases ih (recordSuccess d now s) with ⟨h1, h2⟩
    constructor
    · rw [hrec, h1, hsucc]
      simp [List.length_cons]
      omega
    · have havg : (recordSuccess d now s).averageResponseTime *
          ((s.successfulRequests : ℚ) + 1) =
          s.averageResponseTime * s.successfulRequests + d := by
        show ((s.averageResponseTime * (((s.successfulRequests + 1 : Nat) : ℚ) - 1) + d) /
            ((s.successfulRequests + 1 : Nat) : ℚ)) * ((s.successfulRequests : ℚ) + 1) =
          s.averageResponseTime * s.successfulRequests + d
        have hne : ((s.successfulRequests : ℚ) + 1) ≠ 0 := by positivity
        push_cast
        rw [div_mul_cancel₀ _ hne]
        ring
      have hcast : ((recordSuccess d now s).successfulRequests : ℚ) =
          (s.successfulRequests : ℚ) + 1 := by
        rw [hsucc]
        push_cast
        ring
      rw [hcast] at h2
      have hlen : ((d :: tl).length : ℚ) = (tl.length : ℚ) + 1 := by
        push_cast [List.length_cons]
        ring
      have hsum : (d :: tl).sum = d + tl.sum := by simp
      rw [hrec, hlen, hsum]
      calc (runSuccessStats tl now (recordSuccess d now s)).averageResponseTime *
            ((s.successfulRequests : ℚ) + ((tl.length : ℚ) + 1))
          = (runSuccessStats tl now (recordSuccess d now s)).averageResponseTime *
            (((s.successfulRequests : ℚ) + 1) + (tl.length : ℚ)) := by ring
        _ = (recordSuccess d now s).averageResponseTime * ((s.successfulRequests : ℚ) + 1) +
            tl.sum := h2
        _ = (s.averageResponseTime * s.successfulRequests + d) + tl.sum := by rw [havg]
        _ = s.averageResponseTime * s.successfulRequests + (d + tl.sum) := by ring

/-- One unfolding step of the retry loop. -/
theorem runAttempts_succ (p : ReqParams) (oracle : Nat → AttemptOracle) (M n i : Nat)
    (e : String) (s : ClientStats) (ds : List Nat) (fs : List (String × FetchOpts)) :
    runAttempts p oracle M (n + 1) i e s ds fs =
      match attemptStep p oracle M i s with
      | .success v s1 fbs => ⟨.ok v, s1, i + 1, ds, fs ++ fbs⟩
      | .brk m s1 fbs => finishFail M m s1 (i + 1) ds (fs ++ fbs)
      | .retry m s1 fbs =>
        runAttempts p oracle M n (i + 1) m s1 (ds ++ [1000 * (i + 1)]) (fs ++ fbs) := rfl

/-! ### Claim theorems -/

/-- Claim C3: a non-replayable body (multipart form data, or a stream-like
object with a `pipe` function) caps the pipeline at exactly one attempt
regardless of the configured retry count, while absent, string and
binary-buffer bodies run under the configured maximum number of attempts
(the retries option when positive, else the constructor's maxRetries,
defaulted to 1 when falsy). -/
theorem c3_body_replayability_attempt_cap (p : ReqParams) (oracle : Nat → AttemptOracle)
    (s : ClientStats) :
    ((p.data = .formData ∨ p.data = .streamPipe) →
      maxAttemptsOf p = 1 ∧ (runRequest p oracle s).attemptsMade = 1) ∧
    ((p.data = .empty ∨ (∃ t, p.data = .text t) ∨ p.data = .buffer) →
      maxAttemptsOf p = configuredRetriesOf p.retryOverride p.maxRetries ∧
      (runRequest p oracle s).attemptsMade ≤ configuredRetriesOf p.retryOverride p.maxRetries ∧
      1 ≤ (runRequest p oracle s).attemptsMade) := by
  have hle := runAttempts_attempts_le p oracle (maxAttemptsOf p) (maxAttemptsOf p) 0
    "Unknown error" { s with totalRequests := s.totalRequests + 1 } [] []
  have hge := runAttempts_attempts_ge1 p oracle (maxAttemptsOf p) (maxAttemptsOf p) 0
    "Unknown error" { s with totalRequests := s.totalRequests + 1 } [] [] (maxAttemptsOf_pos p)
  constructor
  · intro hd
    have hM : maxAttemptsOf p = 1 := by
      rcases hd with hd | hd <;> simp [maxAttemptsOf, isRetryableBody, hd]
    refine ⟨hM, ?_⟩
    unfold runRequest
    omega
  · intro hd
    have hM : maxAttemptsOf p = configuredRetriesOf p.retryOverride p.maxRetries := by
      rcases hd with hd | ⟨t, hd⟩ | hd <;> simp [maxAttemptsOf, isRetryableBody, hd]
    refine ⟨hM, ?_, ?_⟩ <;> unfold runRequest <;> omega

/-- Claim C5: between consecutive attempts the pipeline waits exactly
`1000 * (i + 1)` milliseconds after attempt index `i`, so the recorded
backoff delays are `1000, 2000, ...` in order and their total grows
quadratically in the number of retries (`500 * k * (k + 1)` for `k`
retries). -/
theorem c5_linear_backoff (p : ReqParams) (oracle : Nat → AttemptOracle) (s : ClientStats) :
    (runRequest p oracle s).backoffDelays =
      (List.range ((runRequest p oracle s).attemptsMade - 1)).map (fun i => 1000 * (i + 1)) ∧
    ((runRequest p oracle s).backoffDelays).sum =
      500 * ((runRequest p oracle s).attemptsMade - 1) * (runRequest p oracle s).attemptsMade := by
  have hge := runAttempts_attempts_ge1 p oracle (maxAttemptsOf p) (maxAttemptsOf p) 0
    "Unknown error" { s with totalRequests := s.totalRequests + 1 } [] [] (maxAttemptsOf_pos p)
  have hd : (runRequest p oracle s).backoffDelays =
      (List.range ((runRequest p oracle s).attemptsMade - 1)).map (fun i => 1000 * (i + 1)) := by
    unfold runRequest
    have h := runAttempts_delays p oracle (maxAttemptsOf p) (maxAttemptsOf p) 0 "Unknown error"
      { s with totalRequests := s.totalRequests + 1 } [] [] (by omega)
    rw [h]
    simp only [Nat.sub_zero, List.nil_append]
    exact List.map_congr_left fun j _ => by ring
  refine ⟨hd, ?_⟩
  rw [hd, backoff_sum]
  have hA : ((runRequest p oracle s).attemptsMade - 1) + 1 = (runRequest p oracle s).attemptsMade := by
    unfold runRequest
    omega
  rw [hA]

/-- The five cumulative counters, compared pointwise. -/
def statsCountersLE (a b : ClientStats) : Prop :=
  a.totalRequests ≤ b.totalRequests ∧ a.successfulRequests ≤ b.successfulRequests ∧
  a.failedRequests ≤ b.failedRequests ∧ a.rateLimitHits ≤ b.rateLimitHits ∧
  a.authFailures ≤ b.authFailures

/-- Claim C9: every stats counter (totalRequests, successfulRequests,
failedRequests, rateLimitHits, authFailures) is monotonically non-decreasing
across every pipeline operation: any `request` run and the `authenticate`
failure bookkeeping only ever increment them. -/
theorem c9_counters_monotone :
    (∀ (p : ReqParams) (oracle : Nat → AttemptOracle) (s : ClientStats),
      statsCountersLE s (runRequest p oracle s).stats) ∧
    (∀ s : ClientStats, statsCountersLE s (recordAuthFailure s)) := by
  constructor
  · intro p oracle s
    rcases runRequest_counts p oracle s with ⟨h1, h2, h3, h4, h5⟩
    refine ⟨by omega, ?_, ?_, h5, by omega⟩ <;>
      rcases hok : isOkB (runRequest p oracle s).outcome <;> rw [hok] at h2 h3 <;>
      simp at h2 h3 <;> omega
  · intro s
    exact ⟨le_refl _, le_refl _, le_refl _, le_refl _, Nat.le_succ _⟩

/-- Claim C10: every `request` run increments `totalRequests` by exactly one;
a resolved run increments `successfulRequests` by one leaving
`failedRequests` unchanged, a thrown run increments `failedRequests` by one
leaving `successfulRequests` unchanged; hence after any sequence of completed
calls from a fresh client, `totalRequests` equals `successfulRequests` plus
`failedRequests`. -/
theorem c10_stats_partition :
    (∀ (p : ReqParams) (oracle : Nat → AttemptOracle) (s : ClientStats),
      (runRequest p oracle s).stats.totalRequests = s.totalRequests + 1 ∧
      (runRequest p oracle s).stats.successfulRequests =
        s.successfulRequests + (if isOkB (runRequest p oracle s).outcome then 1 else 0) ∧
      (runRequest p oracle s).stats.failedRequests =
        s.failedRequests + (if isOkB (runRequest p oracle s).outcome then 0 else 1) ∧
      (runRequest p oracle s).stats.successfulRequests +
          (runRequest p oracle s).stats.failedRequests =
        s.successfulRequests + s.failedRequests + 1) ∧
    (∀ calls : List (ReqParams × (Nat → AttemptOracle)),
      (runMany calls freshStats).totalRequests =
        (runMany calls freshStats).successfulRequests +
          (runMany calls freshStats).failedRequests) := by
  constructor
  · intro p oracle s
    rcases runRequest_counts p oracle s with ⟨h1, h2, h3, _, _⟩
    refine ⟨h1, h2, h3, ?_⟩
    rcases hok : isOkB (runRequest p oracle s).outcome <;> rw [hok] at h2 h3 <;>
      simp at h2 h3 <;> omega
  · intro calls
    exact runMany_partition calls freshStats rfl

/-- Claim C7: for a 2xx response, an empty body resolves to null and counts
as a success; a non-empty body that fails JSON parsing throws a fatal
`WordPressAPIError` on an authentication-sensitive endpoint (one containing
"users/me" or "jwt-auth") leaving the stats untouched, and on any other
endpoint resolves to the raw text and counts as a success; every recorded
success increments `successfulRequests` by exactly one. -/
theorem c7_parse_response (r : HttpResponse) (endpoint : String) (d : ℚ) (now : Nat)
    (s : ClientStats) :
    (r.text = "" →
      parseResponseM r endpoint d now s = (.ok .nullResult, recordSuccess d now s)) ∧
    (∀ em, r.text ≠ "" → r.parsed = .fail em →
      (strContains endpoint "users/me" || strContains endpoint "jwt-auth") = true →
      parseResponseM r endpoint d now s =
        (.error (.apiError ("Invalid JSON response: " ++ em) none), s)) ∧
    (∀ em, r.text ≠ "" → r.parsed = .fail em →
      (strContains endpoint "users/me" || strContains endpoint "jwt-auth") = false →
      parseResponseM r endpoint d now s = (.ok (.textResult r.text), recordSuccess d now s)) ∧
    (∀ (d' : ℚ) (now' : Nat) (s' : ClientStats),
      (recordSuccess d' now' s').successfulRequests = s'.successfulRequests + 1) := by
  refine ⟨?_, ?_, ?_, fun d' now' s' => rfl⟩
  · intro ht
    unfold parseResponseM
    rw [if_pos ht]
  · intro em ht hp hs
    unfold parseResponseM
    rw [if_neg ht, hp]
    dsimp only
    rw [if_pos hs]
  · intro em ht hp hs
    unfold parseResponseM
    rw [if_neg ht, hp]
    dsimp only
    rw [if_neg (by simp [hs])]

/-- Claim C6: starting from a fresh client, the running average response time
after successes with durations d1..dN is their arithmetic mean, because each
recorded success recomputes it as `(avg * (n - 1) + duration) / n` with `n`
the success count after incrementing. -/
theorem c6_average_is_mean (now : Nat) (ds : List ℚ) (h : ds ≠ []) :
    (runSuccessStats ds now freshStats).averageResponseTime = ds.sum / ds.length ∧
    (∀ (d : ℚ) (s : ClientStats),
      (recordSuccess d now s).successfulRequests = s.successfulRequests + 1 ∧
      (recordSuccess d now s).averageResponseTime =
        (s.averageResponseTime * (((s.successfulRequests + 1 : Nat) : ℚ) - 1) + d) /
          ((s.successfulRequests + 1 : Nat) : ℚ)) := by
  refine ⟨?_, fun d s => ⟨rfl, rfl⟩⟩
  rcases runSuccessStats_aux now ds freshStats with ⟨h1, h2⟩
  have h2' : (runSuccessStats ds now freshStats).averageResponseTime * (ds.length : ℚ) =
      ds.sum := by
    have hfs : (freshStats.successfulRequests : ℚ) = 0 := rfl
    have hfa : freshStats.averageResponseTime = 0 := rfl
    rw [hfs, hfa] at h2
    simpa using h2
  have hne : ((ds.length : ℚ)) ≠ 0 := by
    have hl : ds.length ≠ 0 := by
      simpa using h
    exact_mod_cast hl
  rw [eq_div_iff hne]
  exact h2'

/-- Concrete 429 response used to exercise claim C1. -/
def c1resp : HttpResponse :=
  ⟨429, "Too Many Requests", "Too many requests", .fail "x"⟩

/-- Concrete request parameters used to exercise claim C1. -/
def c1p : ReqParams :=
  ⟨"GET", "posts", .empty, [], none, 3, 30000, "http://site.example/wp-json/wp/v2", 1000⟩

/-- Oracle for claim C1: every attempt receives the 429 response. -/
def c1o : Nat → AttemptOracle := fun _ =>
  ⟨.resp c1resp, .resp ⟨500, "ISE", "", .fail "x"⟩, 5⟩

/-- Claim C1 counterexample: a call whose first attempt receives a 429 does
stop after one attempt and does increment `rateLimitHits`, but the error
raised to the caller is a `WordPressAPIError` wrapping the message with the
attempt budget ("Request failed after 3 attempts: ..."), not a
`RateLimitError` carrying a retry-after estimate: the internally thrown
`RateLimitError` is swallowed by the catch block and re-wrapped after the
loop. -/
theorem c1_counterexample :
    (runRequest c1p c1o freshStats).outcome =
      .error (.apiError "Request failed after 3 attempts: Too many requests" none) ∧
    (runRequest c1p c1o freshStats).attemptsMade = 1 ∧
    (runRequest c1p c1o freshStats).stats.rateLimitHits = 1 ∧
    (c1o 0).outcome = .resp c1resp ∧ c1resp.status = 429 := by
  refine ⟨by decide, by decide, by decide, rfl, rfl⟩

/-- Claim C1 (amended): a 429 on the first attempt increments `rateLimitHits`
by one, performs no further attempts, increments `failedRequests` once, and
raises to the caller a `WordPressAPIError` whose message wraps the 429's
extracted message with the attempt budget; internally the handler throws a
`RateLimitError` carrying retry-after `now + 60000` on every 429, but that
error is not the one propagated. -/
theorem c1_rate_limit_no_retry (p : ReqParams) (oracle : Nat → AttemptOracle) (s : ClientStats)
    (r : HttpResponse) (h0 : (oracle 0).outcome = .resp r) (hr : r.status = 429) :
    (runRequest p oracle s).attemptsMade = 1 ∧
    (runRequest p oracle s).stats.rateLimitHits = s.rateLimitHits + 1 ∧
    (runRequest p oracle s).stats.failedRequests = s.failedRequests + 1 ∧
    (runRequest p oracle s).outcome =
      .error (.apiError (requestFailedMsg (maxAttemptsOf p) (extractErrorMessage r)) none) ∧
    (∀ (r' : HttpResponse) (url ep : String) (opts : FetchOpts) (fb : FetchOutcome)
        (now : Nat) (d : ℚ) (s' : ClientStats), r'.status = 429 →
      handleErrorResponse r' url ep opts fb now d s' =
        (.error (.rateLimitError (extractErrorMessage r') (now + 60000)),
          { s' with rateLimitHits := s'.rateLimitHits + 1 }, [])) := by
  have hM := maxAttemptsOf_pos p
  obtain ⟨m, hm⟩ : ∃ m, maxAttemptsOf p = m + 1 := ⟨maxAttemptsOf p - 1, by omega⟩
  unfold runRequest
  rw [hm]
  simp only [runAttempts]
  rw [attemptStep_429 p oracle (m + 1) 0 { s with totalRequests := s.totalRequests + 1 } r h0 hr]
  exact ⟨rfl, rfl, rfl, rfl,
    fun r' url ep opts fb now d s' hs => handleErrorResponse_429 r' url ep opts fb now d s' hs⟩

/-- Claim C1 witness: the amended theorem applied to the concrete 429 run. -/
theorem c1_witness :
    (runRequest c1p c1o freshStats).attemptsMade = 1 ∧
    (runRequest c1p c1o freshStats).stats.rateLimitHits = 1 :=
  ⟨(c1_rate_limit_no_retry c1p c1o freshStats c1resp rfl rfl).1,
   (c1_rate_limit_no_retry c1p c1o freshStats c1resp rfl rfl).2.1⟩

/-- Concrete request parameters used to exercise claim C2. -/
def c2p : ReqParams :=
  ⟨"GET", "posts", .empty, [], none, 3, 30000, "http://site.example/wp-json/wp/v2", 1000⟩

/-- Oracle for claim C2: the first attempt throws a generic error whose
message happens to contain "401". -/
def c2o : Nat → AttemptOracle := fun _ =>
  ⟨.thrown (.jsError "Error" "HTTP 401: Unauthorized"), .resp ⟨500, "ISE", "", .fail "x"⟩, 5⟩

/-- Oracle for claim C2: the first attempt throws a generic error, the second
succeeds. -/
def c2oGeneric : Nat → AttemptOracle := fun i =>
  if i = 0 then ⟨.thrown (.jsError "Error" "boom"), .resp ⟨500, "ISE", "", .fail "x"⟩, 5⟩
  else ⟨.resp ⟨200, "OK", "", .fail "e"⟩, .resp ⟨500, "ISE", "", .fail "x"⟩, 7⟩

/-- Claim C2 counterexample: a thrown error that is neither an abort nor a
connection loss (its message passes normalization unchanged) is NOT retried
when its message contains "401", even though two attempts remain in the
budget of three: the retry predicate also excludes messages containing "401"
or "403", beyond the timeout and connection-loss classes the claim names. -/
theorem c2_counterexample :
    (runRequest c2p c2o freshStats).attemptsMade = 1 ∧
    maxAttemptsOf c2p = 3 ∧
    normalizeRequestError (.jsError "Error" "HTTP 401: Unauthorized") c2p.timeout =
      "HTTP 401: Unauthorized" ∧
    (c2o 0).outcome = .thrown (.jsError "Error" "HTTP 401: Unauthorized") := by
  refine ⟨by decide, by decide, by decide, rfl⟩

/-- Claim C2 (amended): a thrown error is retried exactly when attempts
remain and `shouldRetryError` accepts its normalized message, i.e. when the
lowercased message contains none of "401", "403", "timeout", "network
connection lost"; aborts normalize to a "timeout" message and connection
resets to a "network connection lost" message, so those two classes are
never retried. -/
theorem c2_retry_decision (p : ReqParams) (oracle : Nat → AttemptOracle) (s : ClientStats)
    (e : JsError) (h0 : (oracle 0).outcome = .thrown e) (hM : 2 ≤ maxAttemptsOf p) :
    (shouldRetryError (normalizeRequestError e p.timeout) = false →
      (runRequest p oracle s).attemptsMade = 1) ∧
    (shouldRetryError (normalizeRequestError e p.timeout) = true →
      2 ≤ (runRequest p oracle s).attemptsMade) ∧
    (∀ (m : String) (t : Nat),
      shouldRetryError (normalizeRequestError (.jsError "AbortError" m) t) = false) ∧
    (∀ (name m : String) (t : Nat), name ≠ "AbortError" → strContains m "ECONNRESET" = true →
      shouldRetryError (normalizeRequestError (.jsError name m) t) = false) := by
  obtain ⟨m, hm⟩ : ∃ m, maxAttemptsOf p = m + 2 := ⟨maxAttemptsOf p - 2, by omega⟩
  refine ⟨?_, ?_, fun m' t => shouldRetry_abort_false m' t, fun name m' t hn he => ?_⟩
  · intro hsr
    unfold runRequest
    rw [hm]
    rw [runAttempts_succ]
    rw [attemptStep_thrown p oracle (m + 2) 0 { s with totalRequests := s.totalRequests + 1 } e h0]
    unfold classifyCaught
    have hcond : ¬((shouldRetryError (normalizeRequestError e p.timeout) &&
        decide (0 < (m + 2) - 1)) = true) := by
      rw [hsr]
      simp
    rw [if_neg hcond]
    rfl
  · intro hsr
    unfold runRequest
    rw [hm]
    rw [runAttempts_succ]
    rw [attemptStep_thrown p oracle (m + 2) 0 { s with totalRequests := s.totalRequests + 1 } e h0]
    unfold classifyCaught
    have hcond : (shouldRetryError (normalizeRequestError e p.timeout) &&
        decide (0 < (m + 2) - 1)) = true := by
      rw [hsr]
      simp
    rw [if_pos hcond]
    exact runAttempts_attempts_ge1 p oracle (m + 2) (m + 1) 1 (normalizeRequestError e p.timeout)
      { s with totalRequests := s.totalRequests + 1 } ([] ++ [1000 * (0 + 1)]) ([] ++ [])
      (by omega)
  · rw [normalize_econnreset name m' t hn he]
    exact shouldRetry_connLost_false m'

/-- Claim C2 witness: the amended theorem applied to the "401" throw (not
retried) and to a generic throw (retried). -/
theorem c2_witness :
    (runRequest c2p c2o freshStats).attemptsMade = 1 ∧
    2 ≤ (runRequest c2p c2oGeneric freshStats).attemptsMade :=
  ⟨(c2_retry_decision c2p c2o freshStats (.jsError "Error" "HTTP 401: Unauthorized") rfl
      (by decide)).1 (by decide),
   (c2_retry_decision c2p c2oGeneric freshStats (.jsError "Error" "boom") rfl
      (by decide)).2.1 (by decide)⟩

/-- Concrete request parameters used to exercise claim C4 (maxRetries 2). -/
def c4p : ReqParams :=
  ⟨"GET", "posts", .empty, [], none, 2, 30000, "http://site.example/wp-json/wp/v2", 1000⟩

/-- Concrete 404 response used to exercise claim C4. -/
def c4resp : HttpResponse :=
  ⟨404, "Not Found", "rest_no_route", .fail "x"⟩

/-- Oracle for claim C4: every attempt receives the 404 and every fallback
fails with a 500. -/
def c4o : Nat → AttemptOracle := fun _ =>
  ⟨.resp c4resp, .resp ⟨500, "ISE", "", .fail "x"⟩, 5⟩

/-- The parsed form of the 404 call's URL, used to exercise claim C4. -/
def c4u : UrlParts :=
  ⟨"http://site.example", "/wp-json/wp/v2/posts", ""⟩

/-- A successful fallback response used in the claim C4 witness. -/
def c4fbOk : HttpResponse :=
  ⟨200, "OK", "[]", .ok "" "" "parsedList"⟩

/-- Claim C4 counterexample: with a replayable body and a retry budget of
two, a call whose both attempts receive a 404 under the `/wp-json/wp/v2`
prefix issues TWO fallback requests (one per attempt), not exactly one per
call: the 404's `WordPressAPIError` is caught by the retry loop and the
whole attempt, fallback included, runs again. -/
theorem c4_counterexample :
    (runRequest c4p c4o freshStats).fallbackFetches =
      [("http://site.example/index.php?rest_route=/wp/v2/posts",
          (⟨"GET", [], .empty⟩ : FetchOpts)),
        ("http://site.example/index.php?rest_route=/wp/v2/posts",
          (⟨"GET", [], .empty⟩ : FetchOpts))] ∧
    (runRequest c4p c4o freshStats).fallbackFetches.length = 2 ∧
    maxAttemptsOf c4p = 2 ∧
    (c4o 0).outcome = .resp c4resp ∧ (c4o 1).outcome = .resp c4resp ∧ c4resp.status = 404 ∧
    strContains (requestUrl c4p) "/wp-json/wp/v2" = true := by
  refine ⟨by decide, by decide, by decide, rfl, rfl, rfl, by decide⟩

/-- Claim C4 (amended): per ATTEMPT that receives a 404 on a URL containing
the `/wp-json/wp/v2` prefix (and not hitting the German media-restriction
branch), exactly one fallback request is issued, to the
`index.php?rest_route=` rewriting of the same URL with the same method,
headers and body and the query appended; if the fallback returns 2xx with a
parseable (or empty) body, its parsed result is returned and
`successfulRequests` increments; if the fallback fails, a `WordPressAPIError`
carrying the ORIGINAL 404 message is thrown (and is then subject to the
retry policy, so a call with retries may fall back more than once). -/
theorem c4_fallback_per_attempt (r : HttpResponse) (url endpoint : String) (opts : FetchOpts)
    (fb : FetchOutcome) (now : Nat) (d : ℚ) (s : ClientStats) (u : UrlParts)
    (hr : r.status = 404) (hurl : strContains url "/wp-json/wp/v2" = true)
    (hu : parseUrl url = some u)
    (hde : ¬(strContains (extractErrorMessage r) "Beiträge zu erstellen" = true ∧
      strContains endpoint "media" = true)) :
    (handleErrorResponse r url endpoint opts fb now d s).2.2 = [(fallbackUrlOf u, opts)] ∧
    (∀ fr me er v, fb = .resp fr → respOk fr = true → fr.text ≠ "" → fr.parsed = .ok me er v →
      handleErrorResponse r url endpoint opts fb now d s =
        (.ok (.jsonResult v), recordSuccess d now s, [(fallbackUrlOf u, opts)])) ∧
    (∀ fr, fb = .resp fr → respOk fr = true → fr.text = "" →
      handleErrorResponse r url endpoint opts fb now d s =
        (.ok .nullResult, recordSuccess d now s, [(fallbackUrlOf u, opts)])) ∧
    (∀ fr, fb = .resp fr → respOk fr = false →
      handleErrorResponse r url endpoint opts fb now d s =
        (.error (.apiError (extractErrorMessage r) (some 404)), s, [(fallbackUrlOf u, opts)])) := by
  have h404 : handleErrorResponse r url endpoint opts fb now d s =
      match tryIndexPhpFallback url opts fb d now s with
      | (some v, s1, fbs) => (.ok v, s1, fbs)
      | (none, s1, fbs) => (.error (.apiError (extractErrorMessage r) (some r.status)), s1, fbs) := by
    unfold handleErrorResponse
    split
    · rename_i h429
      omega
    · split
      · rename_i h403
        simp only [Bool.and_eq_true, decide_eq_true_eq] at h403
        omega
      · split
        · rename_i hger
          simp only [Bool.and_eq_true] at hger
          exact absurd hger hde
        · split
          · rfl
          · rename_i h404c
            simp [hr, hurl] at h404c
  rw [hr] at h404
  refine ⟨?_, ?_, ?_, ?_⟩
  · rw [h404]
    have hfl : (tryIndexPhpFallback url opts fb d now s).2.2 = [(fallbackUrlOf u, opts)] := by
      unfold tryIndexPhpFallback
      rw [hu]
      rcases fb with fr | e
      · dsimp only
        split
        · rfl
        · split
          · rfl
          · split <;> rfl
      · rfl
    rcases htry : tryIndexPhpFallback url opts fb d now s with ⟨o, s1, fbs⟩
    rw [htry] at hfl
    rcases o <;> simpa using hfl
  · rintro fr me er v rfl hok htext hp
    have htry : tryIndexPhpFallback url opts (.resp fr) d now s =
        (some (.jsonResult v), recordSuccess d now s, [(fallbackUrlOf u, opts)]) := by
      unfold tryIndexPhpFallback
      rw [hu]
      dsimp only
      rw [hok]
      simp only [Bool.not_true, Bool.false_eq_true, if_false]
      rw [if_neg htext, hp]
    rw [h404, htry]
  · rintro fr rfl hok htext
    have htry : tryIndexPhpFallback url opts (.resp fr) d now s =
        (some .nullResult, recordSuccess d now s, [(fallbackUrlOf u, opts)]) := by
      unfold tryIndexPhpFallback
      rw [hu]
      dsimp only
      rw [hok]
      simp only [Bool.not_true, Bool.false_eq_true, if_false]
      rw [if_pos htext]
    rw [h404, htry]
  · rintro fr rfl hok
    have htry : tryIndexPhpFallback url opts (.resp fr) d now s =
        (none, s, [(fallbackUrlOf u, opts)]) := by
      unfold tryIndexPhpFallback
      rw [hu]
      dsimp only
      rw [hok]
      simp
    rw [h404, htry]

/-- Claim C4 witness: the amended theorem at the concrete 404 call, with a
fallback that succeeds: one rewritten fallback fetch with the original
options, the parsed fallback result returned, the success recorded. -/
theorem c4_witness :
    handleErrorResponse c4resp (requestUrl c4p) "posts" ⟨"GET", [], .empty⟩ (.resp c4fbOk)
        1000 5 freshStats =
      (.ok (.jsonResult "parsedList"), recordSuccess 5 1000 freshStats,
        [(fallbackUrlOf c4u, (⟨"GET", [], .empty⟩ : FetchOpts))]) :=
  (c4_fallback_per_attempt c4resp (requestUrl c4p) "posts" ⟨"GET", [], .empty⟩ (.resp c4fbOk)
      1000 5 freshStats c4u rfl (by decide) (by decide) (by decide)).2.1 c4fbOk "" "" "parsedList"
    rfl (by decide) (by decide) rfl

/-- Claim C8 counterexample: the loopback address 127.0.0.2 (hostname of a
loopback-range IP that is not the literal "127.0.0.1") is ACCEPTED by
construction even in production mode, and a URL whose path ends in three
slashes is stored WITH a trailing slash (each of the two sanitisation passes
strips only one). -/
theorem c8_counterexample :
    validateAndSanitizeUrl "http://127.0.0.2/wp"
      (some ⟨"http:", "127.0.0.2", "127.0.0.2", "/wp"⟩) true = .ok "http://127.0.0.2/wp" ∧
    isPrivateHostname (lowerStr "127.0.0.2") = false ∧
    storedBaseUrl "http://example.com/a///"
      (some ⟨"http:", "example.com", "example.com", "/a///"⟩) false =
      .ok "http://example.com/a/" ∧
    strEndsWith "http://example.com/a/" "/" = true := by
  refine ⟨by decide, by decide, by decide, by decide⟩

/-- Claim C8 (amended): a base URL whose lowercased hostname is exactly
"localhost", "127.0.0.1" or "::1", or starts with "10.", "172.16."-"172.31."
or "192.168.", fails production construction with the private-URL rejection;
the same URL is accepted in non-production mode; every accepted URL is
stored as protocol + host + pathname (hence without query or fragment), with
at most one trailing slash stripped by validation and one more by config
validation. -/
theorem c8_private_url_validation (url : String) (u : ParsedUrl) (hu : url ≠ "")
    (hp : u.protocol = "http:" ∨ u.protocol = "https:") :
    (isPrivateHostname (lowerStr u.hostname) = true →
      validateAndSanitizeUrl url (some u) true =
        .error "Private/localhost URLs not allowed in production") ∧
    (validateAndSanitizeUrl url (some u) false =
      .ok (stripOneTrailingSlash (u.protocol ++ "//" ++ u.host ++ u.pathname))) ∧
    (storedBaseUrl url (some u) false =
      .ok (stripOneTrailingSlash
        (stripOneTrailingSlash (u.protocol ++ "//" ++ u.host ++ u.pathname)))) := by
  have hproto : ¬((!(u.protocol = "http:" || u.protocol = "https:")) = true) := by
    rcases hp with h | h <;> simp [h]
  have hok : validateAndSanitizeUrl url (some u) false =
      .ok (stripOneTrailingSlash (u.protocol ++ "//" ++ u.host ++ u.pathname)) := by
    unfold validateAndSanitizeUrl
    rw [if_neg hu]
    dsimp only
    rw [if_neg hproto]
    rw [if_neg (by simp : ¬((false && isPrivateHostname (lowerStr u.hostname)) = true))]
  refine ⟨?_, hok, ?_⟩
  · intro hpriv
    unfold validateAndSanitizeUrl
    rw [if_neg hu]
    dsimp only
    rw [if_neg hproto]
    rw [if_pos (by simp [hpriv] : (true && isPrivateHostname (lowerStr u.hostname)) = true)]
  · unfold storedBaseUrl
    rw [hok]
    rfl

/-- The parsed URL used in the claim C8 witness. -/
def c8u : ParsedUrl :=
  ⟨"http:", "localhost", "localhost", "/wp"⟩

/-- Claim C8 witness: the amended theorem at `http://localhost/wp`: rejected
in production, accepted and stored in non-production. -/
theorem c8_witness :
    validateAndSanitizeUrl "http://localhost/wp" (some c8u) true =
      .error "Private/localhost URLs not allowed in production" ∧
    validateAndSanitizeUrl "http://localhost/wp" (some c8u) false =
      .ok (stripOneTrailingSlash ("http:" ++ "//" ++ "localhost" ++ "/wp")) :=
  ⟨(c8_private_url_validation "http://localhost/wp" c8u (by decide) (.inl rfl)).1 (by decide),
   (c8_private_url_validation "http://localhost/wp" c8u (by decide) (.inl rfl)).2.1⟩

/-- Parameters with a form-data body used in the claim C3 witness. -/
def c3pForm : ReqParams :=
  ⟨"POST", "media", .formData, [], none, 3, 30000, "http://site.example/wp-json/wp/v2", 1000⟩

/-- Parameters with an absent body used in the claim C3 witness. -/
def c3pEmpty : ReqParams :=
  ⟨"GET", "posts", .empty, [], none, 3, 30000, "http://site.example/wp-json/wp/v2", 1000⟩

/-- Oracle used in the claim C3 witness: every attempt throws a retryable
generic error. -/
def c3o : Nat → AttemptOracle := fun _ =>
  ⟨.thrown (.jsError "Error" "boom"), .resp ⟨500, "ISE", "", .fail "x"⟩, 5⟩

/-- Claim C3 witness: the claim theorem at a form-data body (one attempt)
and at an absent body (the configured budget). -/
theorem c3_witness :
    (maxAttemptsOf c3pForm = 1 ∧ (runRequest c3pForm c3o freshStats).attemptsMade = 1) ∧
    (maxAttemptsOf c3pEmpty =
        configuredRetriesOf c3pEmpty.retryOverride c3pEmpty.maxRetries ∧
      (runRequest c3pEmpty c3o freshStats).attemptsMade ≤
        configuredRetriesOf c3pEmpty.retryOverride c3pEmpty.maxRetries ∧
      1 ≤ (runRequest c3pEmpty c3o freshStats).attemptsMade) :=
  ⟨(c3_body_replayability_attempt_cap c3pForm c3o freshStats).1 (.inl rfl),
   (c3_body_replayability_attempt_cap c3pEmpty c3o freshStats).2 (.inl rfl)⟩

/-- Claim C6 witness: the claim theorem at durations 1, 2, 3: the average is
their mean, 2. -/
theorem c6_witness : (runSuccessStats [1, 2, 3] 0 freshStats).averageResponseTime = 2 := by
  have h := (c6_average_is_mean 0 [1, 2, 3] (by simp)).1
  rw [h]
  norm_num

/-- Empty-body 2xx response used in the claim C7 witness. -/
def c7rEmpty : HttpResponse :=
  ⟨200, "OK", "", .fail "e"⟩

/-- Non-JSON 2xx response used in the claim C7 witness. -/
def c7rBad : HttpResponse :=
  ⟨200, "OK", "not json", .fail "Unexpected token"⟩

/-- Claim C7 witness: the claim theorem at an empty body, at a non-JSON body
on the authentication-sensitive `users/me` endpoint, and at a non-JSON body
on an ordinary endpoint. -/
theorem c7_witness :
    parseResponseM c7rEmpty "posts" 5 1000 freshStats =
      (.ok .nullResult, recordSuccess 5 1000 freshStats) ∧
    parseResponseM c7rBad "users/me" 5 1000 freshStats =
      (.error (.apiError ("Invalid JSON response: " ++ "Unexpected token") none), freshStats) ∧
    parseResponseM c7rBad "posts" 5 1000 freshStats =
      (.ok (.textResult "not json"), recordSuccess 5 1000 freshStats) :=
  ⟨(c7_parse_response c7rEmpty "posts" 5 1000 freshStats).1 rfl,
   (c7_parse_response c7rBad "users/me" 5 1000 freshStats).2.1 "Unexpected token" (by decide)
     rfl (by decide),
   (c7_parse_response c7rBad "posts" 5 1000 freshStats).2.2.1 "Unexpected token" (by decide)
     rfl (by decide)⟩
